/-
  Verification of the SSHXtend relay server against its specification.

  Shallow embedding of the relevant parts of the source:
    - crates/sshx-server/src/web/socket.rs  (frontend auth handshake, client
      verb dispatch, websocket proxy, CLI open-session and token validation)
    - crates/sshx-server/src/web.rs         (dashboard registry and the
      paginated session-list endpoint)
    - crates/sshx-server/src/web/protocol.rs (frame types)

  Bytes are modelled as List Nat (each element < 256 where it matters),
  strings as Lean String, and the HMAC engine as an abstract function
  parameter, since the server secret is opaque process state.
-/
import Mathlib

namespace SSHXtend

/-! ## Base64 (standard alphabet, padded)

Model of the external `base64` crate engine `BASE64_STANDARD` used by
`handle_cli_socket` in crates/sshx-server/src/web/socket.rs: RFC 4648
standard alphabet with mandatory canonical padding.  Encoding is total on
byte lists; decoding is strict (rejects bad characters, bad padding and
non-zero trailing bits), matching the default general-purpose config. -/

/-- Character of a sextet value in the standard base64 alphabet. -/
def b64CharOf (n : Nat) : Char :=
  if n < 26 then Char.ofNat (65 + n)
  else if n < 52 then Char.ofNat (97 + (n - 26))
  else if n < 62 then Char.ofNat (48 + (n - 52))
  else if n = 62 then '+'
  else '/'

/-- Sextet value of a character in the standard base64 alphabet. -/
def b64IndexOf (c : Char) : Option Nat :=
  if 'A' ≤ c ∧ c ≤ 'Z' then some (c.toNat - 65)
  else if 'a' ≤ c ∧ c ≤ 'z' then some (c.toNat - 97 + 26)
  else if '0' ≤ c ∧ c ≤ '9' then some (c.toNat - 48 + 52)
  else if c = '+' then some 62
  else if c = '/' then some 63
  else none

/-- Standard base64 encoding of a byte list, with padding. -/
def b64Encode : List Nat → List Char
  | [] => []
  | [a] => [b64CharOf (a / 4), b64CharOf (a % 4 * 16), '=', '=']
  | [a, b] => [b64CharOf (a / 4), b64CharOf (a % 4 * 16 + b / 16), b64CharOf (b % 16 * 4), '=']
  | a :: b :: c :: rest =>
      b64CharOf (a / 4) :: b64CharOf (a % 4 * 16 + b / 16) ::
      b64CharOf (b % 16 * 4 + c / 64) :: b64CharOf (c % 64) :: b64Encode rest

/-- Strict standard base64 decoding: canonical padding, no trailing bits. -/
def b64Decode : List Char → Option (List Nat)
  | [] => some []
  | c1 :: c2 :: c3 :: c4 :: rest =>
      match b64IndexOf c1, b64IndexOf c2 with
      | some s1, some s2 =>
        if c3 = '=' then
          if c4 = '=' ∧ rest = [] ∧ s2 % 16 = 0 then some [s1 * 4 + s2 / 16] else none
        else
          match b64IndexOf c3 with
          | some s3 =>
            if c4 = '=' then
              if rest = [] ∧ s3 % 4 = 0 then
                some [s1 * 4 + s2 / 16, s2 % 16 * 16 + s3 / 4]
              else none
            else
              match b64IndexOf c4 with
              | some s4 =>
                (b64Decode rest).map
                  (fun bs => (s1 * 4 + s2 / 16) :: (s2 % 16 * 16 + s3 / 4) :: (s3 % 4 * 64 + s4) :: bs)
              | none => none
          | none => none
      | _, _ => none
  | _ => none

/-! ## Token validation

From `validate_token` in crates/sshx-server/src/web/socket.rs (lines
405-412): base64-decode the token and verify it in constant time against
the keyed MAC of the session name; any failure is the literal error text
"invalid token".  The HMAC engine `state.mac()` is opaque server state, so
it is a function parameter `macOf` giving the MAC bytes of each name. -/

/-- `validate_token(mac, name, token)` from socket.rs.  `mac.chain_update
(name).verify_slice(decoded)` is a constant-time equality test between the
decoded token bytes and the MAC output for `name`. -/
def validate_token (macOf : String → List Nat) (name : String) (token : List Char) :
    Except String Unit :=
  match b64Decode token with
  | some bytes => if bytes = macOf name then .ok () else .error "invalid token"
  | none => .error "invalid token"

/-! ## Frontend protocol frames

From crates/sshx-server/src/web/protocol.rs.  `Bytes` is List Nat, ids are
Nat, coordinates are Int. -/

/-- `WsWinsize` from protocol.rs (x, y are i32; rows, cols are u16). -/
structure WsWinsize where
  x : Int
  y : Int
  rows : Nat
  cols : Nat
deriving DecidableEq, Repr

/-- `WsUser` from protocol.rs. -/
structure WsUser where
  name : String
  cursor : Option (Int × Int)
  focus : Option Nat
  can_write : Bool
deriving DecidableEq, Repr

/-- `WsServer` frames from protocol.rs (server to client). -/
inductive WsServer where
  | hello : Nat → String → WsServer
  | invalidAuth : WsServer
  | users : List (Nat × WsUser) → WsServer
  | userDiff : Nat → Option WsUser → WsServer
  | shells : List (Nat × WsWinsize) → WsServer
  | chunks : Nat → Nat → List (List Nat) → WsServer
  | hear : Nat → String → String → WsServer
  | shellLatency : Nat → WsServer
  | pong : Nat → WsServer
  | error : String → WsServer
deriving DecidableEq, Repr

/-- `WsClient` frames from protocol.rs (client to server). -/
inductive WsClient where
  | authenticate : List Nat → Option (List Nat) → WsClient
  | setName : String → WsClient
  | setCursor : Option (Int × Int) → WsClient
  | setFocus : Option Nat → WsClient
  | create : Int → Int → WsClient
  | close : Nat → WsClient
  | move : Nat → Option WsWinsize → WsClient
  | data : Nat → List Nat → Nat → WsClient
  | subscribe : Nat → Nat → WsClient
  | chat : String → WsClient
  | ping : Nat → WsClient
deriving DecidableEq, Repr

/-- `ServerMessage` variants that the frontend handler enqueues on the
backend queue (`update_tx`), from sshx-core proto as used in socket.rs. -/
inductive ServerMessage where
  | createShell : Nat → Int → Int → ServerMessage
  | closeShell : Nat → ServerMessage
  | input : Nat → List Nat → Nat → ServerMessage
  | resize : Nat → Nat → Nat → ServerMessage
deriving DecidableEq, Repr

/-- `Metadata` of a session, as constructed in `handle_cli_socket`
(socket.rs lines 462-466): display name, encrypted-zeros witness, and the
optional write password hash. -/
structure Metadata where
  name : String
  encryptedZeros : List Nat
  writePasswordHash : Option (List Nat)
deriving DecidableEq, Repr

/-- `subtle::ConstantTimeEq::ct_eq` on byte strings: true exactly when the
two byte sequences are equal (same length and contents). -/
def ctEq (a b : List Nat) : Bool := a == b

/-! ## Frontend auth handshake

From `handle_socket` in socket.rs, lines 117-156.  After sending `Hello`,
the handler receives the first decoded client frame and decides the auth
outcome.  The result records the frames sent on the socket during this
phase, the allocated user (its `can_write` flag) if the handshake
succeeded, and the messages enqueued to the backend queue (none in this
phase: the auth path never touches `update_tx`). -/

/-- Outcome of the auth phase of `handle_socket`. -/
structure AuthResult where
  sent : List WsServer
  user : Option Bool
  backend : List ServerMessage
deriving DecidableEq, Repr

/-- Auth decision of `handle_socket` (socket.rs lines 117-156) on the
first decoded client frame (`none` means the socket ended first).  On
success, `session.user_scope(user_id, can_write)` registers the user. -/
def authenticate (meta : Metadata) (first : Option WsClient) : AuthResult :=
  match first with
  | some (.authenticate bytes writePasswordBytes) =>
    if !(ctEq bytes meta.encryptedZeros) then ⟨[.invalidAuth], none, []⟩
    else
      match writePasswordBytes, meta.writePasswordHash with
      | _, none => ⟨[], some true, []⟩
      | none, some _ => ⟨[], some false, []⟩
      | some provided, some stored =>
        if !(ctEq provided stored) then ⟨[.invalidAuth], none, []⟩
        else ⟨[], some true, []⟩
  | _ => ⟨[.invalidAuth], none, []⟩

/-! ## Client verb dispatch

From the main loop of `handle_socket`, socket.rs lines 190-275.  Each
decoded client frame yields frames sent back on the socket and messages
enqueued to the backend queue.  Roster updates (SetName, SetCursor,
SetFocus), chat broadcast, and subscription task spawning are effects on
other channels and are outside the two modelled streams. -/

/-- Modelled from the spec: `Session::check_write_permission(uid)`
(crates/sshx-server/src/session, not under src/) — "Permission denied —
write verb from reader": an error for users with `can_write = false`,
success for writers. -/
def check_write_permission (canWrite : Bool) : Except String Unit :=
  if canWrite then .ok () else .error "no write permission"

/-- Result of one loop iteration of `handle_socket` on a client frame. -/
structure StepResult where
  sent : List WsServer
  backend : List ServerMessage
  nextSid : Nat
deriving DecidableEq, Repr

/-- One arm of the `match msg` in the main loop of `handle_socket`
(socket.rs lines 190-275).  `sid` is the current shell-id counter value;
`moveShell` is the outcome of `session.move_shell` for a Move frame. -/
def handleClientMsg (canWrite : Bool) (sid : Nat) (moveShell : Except String Unit)
    (msg : WsClient) : StepResult :=
  match msg with
  | .authenticate _ _ => ⟨[], [], sid⟩
  | .setName _ => ⟨[], [], sid⟩
  | .setCursor _ => ⟨[], [], sid⟩
  | .setFocus _ => ⟨[], [], sid⟩
  | .create x y =>
    match check_write_permission canWrite with
    | .error e => ⟨[.error e], [], sid⟩
    | .ok () => ⟨[], [.createShell sid x y], sid + 1⟩
  | .close id =>
    match check_write_permission canWrite with
    | .error e => ⟨[.error e], [], sid⟩
    | .ok () => ⟨[], [.closeShell id], sid⟩
  | .move id winsize =>
    match check_write_permission canWrite with
    | .error e => ⟨[.error e], [], sid⟩
    | .ok () =>
      match moveShell with
      | .error err => ⟨[.error err], [], sid⟩
      | .ok () =>
        match winsize with
        | some w => ⟨[], [.resize id w.rows w.cols], sid⟩
        | none => ⟨[], [], sid⟩
  | .data id d offset =>
    match check_write_permission canWrite with
    | .error e => ⟨[.error e], [], sid⟩
    | .ok () => ⟨[], [.input id d offset], sid⟩
  | .subscribe _ _ => ⟨[], [], sid⟩
  | .chat _ => ⟨[], [], sid⟩
  | .ping ts => ⟨[.pong ts], [], sid⟩

/-- The main loop of `handle_socket` over a finite stream of decoded
client frames: concatenated socket sends and backend enqueues. -/
def runClientMsgs (canWrite : Bool) (moveShell : Except String Unit) :
    Nat → List WsClient → List WsServer × List ServerMessage
  | _, [] => ([], [])
  | sid, m :: ms =>
    let r := handleClientMsg canWrite sid moveShell m
    let rest := runClientMsgs canWrite moveShell r.nextSid ms
    (r.sent ++ rest.1, r.backend ++ rest.2)

/-! ## CLI open-session

From the `OpenSession` arm of `handle_cli_socket` in socket.rs (lines
438-488).  `state.override_origin()` and `state.lookup` are server state,
passed as parameters; the generated session name is the result of the
random draw `rand_alphanumeric(10)`. -/

/-- One character of the alphanumeric set [A-Z a-z 0-9], indexed 0-61. -/
def alnumCharOf (d : Fin 62) : Char :=
  if d.val < 26 then Char.ofNat (65 + d.val)
  else if d.val < 52 then Char.ofNat (97 + (d.val - 26))
  else Char.ofNat (48 + (d.val - 52))

/-- Modelled from the spec: `rand_alphanumeric(n)` (sshx-core, not under
src/) — "Session ID generation uses a 10-character alphanumeric CSPRNG
draw": each draw picks one of the 62 characters [A-Za-z0-9]. -/
def rand_alphanumeric (draws : List (Fin 62)) : String :=
  String.mk (draws.map alnumCharOf)

/-- True for ASCII alphanumeric characters. -/
def isAlnumChar (c : Char) : Bool :=
  ('A' ≤ c && c ≤ 'Z') || ('a' ≤ c && c ≤ 'z') || ('0' ≤ c && c ≤ '9')

/-- `OpenRequest` fields read by the `OpenSession` arm. -/
structure OpenRequest where
  origin : String
  encryptedZeros : List Nat
  name : String
  writePasswordHash : Option (List Nat)
deriving DecidableEq, Repr

/-- Responses produced by the `OpenSession` arm of `handle_cli_socket`. -/
inductive OpenOutcome where
  | openSession : String → List Char → String → OpenOutcome
  | error : String → OpenOutcome
deriving DecidableEq, Repr

/-- The `OpenSession` arm of `handle_cli_socket` (socket.rs lines
438-488).  Returns the CLI response and, when a session was created, the
map entry inserted into the session map by `state.insert`.  `macOf` is
`state.mac().chain_update(name).finalize().into_bytes()`; `existing` is
`state.lookup`; `sessionName` is the `rand_alphanumeric(10)` result. -/
def handleOpenSession (macOf : String → List Nat) (overrideOrigin : Option String)
    (existing : String → Bool) (sessionName : String) (req : OpenRequest) :
    OpenOutcome × Option (String × Metadata) :=
  let origin := overrideOrigin.getD req.origin
  if origin = "" then (.error "origin is empty", none)
  else if existing sessionName then (.error "generated duplicate ID", none)
  else
    (.openSession sessionName (b64Encode (macOf sessionName)) (origin ++ "/s/" ++ sessionName),
     some (sessionName, ⟨req.name, req.encryptedZeros, req.writePasswordHash⟩))

/-! ## Transparent websocket proxy

From `proxy_redirect` in socket.rs (lines 281-337).  Per received
message, the relay either forwards a translated message to the other
side, ignores it, or (on a receive error) breaks out of the pump loop. -/

/-- A websocket message, covering the variants the proxy distinguishes
(axum Text/Binary/Close/Ping/Pong; the tungstenite Frame variant behaves
like Ping/Pong here, falling into the ignored wildcard arm). -/
inductive WsMessage where
  | text : String → WsMessage
  | binary : List Nat → WsMessage
  | close : Option (Nat × String) → WsMessage
  | ping : List Nat → WsMessage
  | pong : List Nat → WsMessage
deriving DecidableEq, Repr

/-- What the proxy pump does with one received message. -/
inductive ProxyAction where
  | forward : WsMessage → ProxyAction
  | ignore : ProxyAction
  | halt : ProxyAction
deriving DecidableEq, Repr

/-- The client-to-upstream arm of the select loop in `proxy_redirect`
(socket.rs lines 292-310): Text, Binary and Close are translated and
forwarded, other frames map to `None` (ignored), a receive error breaks. -/
def proxyClientToUpstream : Except Unit WsMessage → ProxyAction
  | .ok (.text s) => .forward (.text s)
  | .ok (.binary b) => .forward (.binary b)
  | .ok (.close f) => .forward (.close f)
  | .ok _ => .ignore
  | .error _ => .halt

/-- The upstream-to-client arm of the select loop in `proxy_redirect`
(socket.rs lines 312-331), symmetric to the client arm. -/
def proxyUpstreamToClient : Except Unit WsMessage → ProxyAction
  | .ok (.text s) => .forward (.text s)
  | .ok (.binary b) => .forward (.binary b)
  | .ok (.close f) => .forward (.close f)
  | .ok _ => .ignore
  | .error _ => .halt

/-- The pump loop of `proxy_redirect` over a finite interleaving of
received events (`true` marks an event from the browser-side socket,
`false` one from the upstream peer): returns the messages forwarded to
the upstream and to the client, stopping at the first receive error. -/
def proxyPump : List (Bool × Except Unit WsMessage) → List WsMessage × List WsMessage
  | [] => ([], [])
  | (side, ev) :: rest =>
    match (if side then proxyClientToUpstream ev else proxyUpstreamToClient ev) with
    | .halt => ([], [])
    | .ignore => proxyPump rest
    | .forward m =>
      let r := proxyPump rest
      if side then (m :: r.1, r.2) else (r.1, m :: r.2)

/-! ## Dashboard registry

From crates/sshx-server/src/web.rs.  The two process-global maps
`DASHBOARDS` and `SESSION_METADATA` are modelled as association lists. -/

/-- Association-list lookup, modelling HashMap::get. -/
def lookupAssoc {β : Type} (m : List (String × β)) (k : String) : Option β :=
  (m.find? (fun p => p.1 = k)).map (fun p => p.2)

/-- Association-list insert-or-replace, modelling HashMap::insert and the
entry API. -/
def insertAssoc {β : Type} (m : List (String × β)) (k : String) (v : β) :
    List (String × β) :=
  if (lookupAssoc m k).isSome then m.map (fun p => if p.1 = k then (k, v) else p)
  else m ++ [(k, v)]

/-- HashSet::insert on a duplicate-free list of names. -/
def insertName (n : String) (l : List String) : List String :=
  if l.contains n then l else l ++ [n]

/-- `Dashboard` from web.rs lines 24-34. -/
structure Dashboard where
  key : String
  createdAt : Nat
  lastAccessed : Nat
  sessionNames : List String
deriving DecidableEq, Repr

/-- `SessionMetadata` from web.rs lines 45-60. -/
structure SessionMetadata where
  sessionName : String
  url : String
  writeUrl : Option String
  displayName : String
  registeredAt : Nat
  dashboardKey : String
deriving DecidableEq, Repr

/-- `SessionInfo` from web.rs lines 63-80.  The Rust doc comment on
`last_accessed` reads "Unix timestamp of last activity (milliseconds)". -/
structure SessionInfo where
  name : String
  shellCount : Nat
  userCount : Nat
  hasWritePassword : Bool
  lastAccessed : Nat
  users : List String
  metadata : Option SessionMetadata
deriving DecidableEq, Repr

/-- One character of the `CHARS` set of `generate_dashboard_key` (web.rs
line 164), lowercase then uppercase then digits, indexed 0-61. -/
def dashboardKeyCharOf (d : Fin 62) : Char :=
  if d.val < 26 then Char.ofNat (97 + d.val)
  else if d.val < 52 then Char.ofNat (65 + (d.val - 26))
  else Char.ofNat (48 + (d.val - 52))

/-- `generate_dashboard_key` from web.rs lines 162-172: sixteen draws of
`rng.gen_range(0..62)` indexing the `CHARS` character set. -/
def generate_dashboard_key (draws : List (Fin 62)) : String :=
  String.mk (draws.map dashboardKeyCharOf)

/-- `RegisterDashboardRequest` from web.rs lines 83-96. -/
structure RegisterDashboardRequest where
  sessionName : String
  url : String
  writeUrl : Option String
  displayName : String
  dashboardKey : Option String
deriving DecidableEq, Repr

/-- `RegisterDashboardResponse` from web.rs lines 99-106. -/
structure RegisterDashboardResponse where
  dashboardKey : String
  dashboardUrl : String
deriving DecidableEq, Repr

/-- `register_dashboard` from web.rs lines 197-245.  `genKey` is the
`generate_dashboard_key()` draw used only when the request carries no
key; `hostOpt` is `state.options().host`.  Returns the updated dashboard
registry, the updated session-metadata map, and the response (the handler
always succeeds). -/
def register_dashboard (now : Nat) (genKey : String) (hostOpt : Option String)
    (dashboards : List (String × Dashboard))
    (metaMap : List (String × SessionMetadata))
    (req : RegisterDashboardRequest) :
    List (String × Dashboard) × List (String × SessionMetadata) ×
      RegisterDashboardResponse :=
  let key := req.dashboardKey.getD genKey
  let d0 := (lookupAssoc dashboards key).getD ⟨key, now, now, []⟩
  let dash := { d0 with
    sessionNames := insertName req.sessionName d0.sessionNames
    lastAccessed := now }
  let dashboards2 := insertAssoc dashboards key dash
  let meta : SessionMetadata :=
    ⟨req.sessionName, req.url, req.writeUrl, req.displayName, now, key⟩
  let metaMap2 := insertAssoc metaMap req.sessionName meta
  let host := hostOpt.getD "localhost"
  (dashboards2, metaMap2, ⟨key, "https://" ++ host ++ "/d/" ++ key⟩)

/-- `DashboardInfoResponse` from web.rs lines 389-398. -/
structure DashboardInfoResponse where
  dashExists : Bool
  sessionCount : Nat
  createdAt : Option Nat
deriving DecidableEq, Repr

/-- `get_dashboard_info` from web.rs lines 400-418.  The handler returns
a `Json` body directly, so the HTTP status (first component) is always
200. -/
def get_dashboard_info (dashboards : List (String × Dashboard)) (key : String) :
    Nat × DashboardInfoResponse :=
  match lookupAssoc dashboards key with
  | some d => (200, ⟨true, d.sessionNames.length, some d.createdAt⟩)
  | none => (200, ⟨false, 0, none⟩)

/-- `check_dashboard_status` from web.rs lines 377-386. -/
def check_dashboard_status (dashboards : List (String × Dashboard)) (key : String) : Nat :=
  if (lookupAssoc dashboards key).isSome then 200 else 404

/-! ## Paginated session listing

From `list_dashboard_sessions` in web.rs lines 248-374. -/

/-- `SessionListQuery` from web.rs lines 109-127. -/
structure SessionListQuery where
  page : Nat
  pageSize : Nat
  search : Option String
  sort : String
  order : String
deriving DecidableEq, Repr

/-- `PaginationInfo` from web.rs lines 145-160. -/
structure PaginationInfo where
  page : Nat
  pageSize : Nat
  total : Nat
  totalPages : Nat
  hasPrevious : Bool
  hasNext : Bool
deriving DecidableEq, Repr

/-- `SessionListResponse` from web.rs lines 135-142. -/
structure SessionListResponse where
  sessions : List SessionInfo
  pagination : PaginationInfo
deriving DecidableEq, Repr

/-- Live per-session state read by the handler:
`session.shell_count()`, `session.list_users()` (user names),
`session.metadata().write_password_hash.is_some()`, and the instant of
the most recent activity.  `lastAccessedInstant` is that instant on the
wall clock in ms, so that `session.last_accessed().elapsed().as_millis()`
equals `now - lastAccessedInstant`. -/
structure LiveSession where
  name : String
  shellCount : Nat
  userNames : List String
  hasWritePassword : Bool
  lastAccessedInstant : Nat
deriving DecidableEq, Repr

/-- The join step of `list_dashboard_sessions` (web.rs lines 274-300)
building a `SessionInfo` from live session state.  Note that the
`last_accessed` field is `session.last_accessed().elapsed().as_millis()`
(web.rs line 283), i.e. the elapsed ms since the last activity. -/
def sessionInfoOf (now : Nat) (metaMap : List (String × SessionMetadata))
    (s : LiveSession) : SessionInfo :=
  { name := s.name
    shellCount := s.shellCount
    userCount := s.userNames.length
    hasWritePassword := s.hasWritePassword
    lastAccessed := now - s.lastAccessedInstant
    users := s.userNames
    metadata := lookupAssoc metaMap s.name }

/-- ASCII lowercase of a string, modelling `str::to_lowercase` on the
ASCII range. -/
def toLowerStr (s : String) : String := String.mk (s.toList.map Char.toLower)

/-- Whether the first list is a prefix of the second. -/
def startsWithList : List Char → List Char → Bool
  | [], _ => true
  | _ :: _, [] => false
  | a :: as, b :: bs => a == b && startsWithList as bs

/-- Whether `needle` occurs as a contiguous substring of the second list,
modelling `str::contains`. -/
def containsList (needle : List Char) : List Char → Bool
  | [] => needle.isEmpty
  | c :: cs => startsWithList needle (c :: cs) || containsList needle cs

/-- Case-insensitive substring test used by the search filter. -/
def strContains (hay needle : String) : Bool := containsList needle.toList hay.toList

/-- The search filter of `list_dashboard_sessions` (web.rs lines
303-314). -/
def applySearch (search : Option String) (ss : List SessionInfo) : List SessionInfo :=
  match search with
  | none => ss
  | some sq =>
    if sq.trim = "" then ss
    else
      let sl := toLowerStr sq
      ss.filter (fun s =>
        strContains (toLowerStr s.name) sl ||
        (match s.metadata with
         | some m => strContains (toLowerStr m.displayName) sl
         | none => false) ||
        s.users.any (fun u => strContains (toLowerStr u) sl))

/-- Insert into a sorted list after every element that strictly precedes
the new one (`lt b a` means the comparator orders `b` before `a`). -/
def insertSorted {α : Type} (lt : α → α → Bool) (a : α) : List α → List α
  | [] => [a]
  | b :: bs => if lt b a then b :: insertSorted lt a bs else a :: b :: bs

/-- Stable sort by a strict comparator, modelling `Vec::sort_by` (a
stable sort keeping the original order of elements the comparator ties;
this insertion sort has the same input-output behavior). -/
def sortByStable {α : Type} (lt : α → α → Bool) : List α → List α
  | [] => []
  | a :: as => insertSorted lt a (sortByStable lt as)

/-- Lexicographic strict order on character lists by codepoint,
equivalent to the byte-wise UTF-8 ordering of Rust `str::cmp`. -/
def charListLt : List Char → List Char → Bool
  | _, [] => false
  | [], _ :: _ => true
  | a :: as, b :: bs =>
    if a.toNat < b.toNat then true
    else if b.toNat < a.toNat then false
    else charListLt as bs

/-- Strict order on strings modelling `Ord::cmp` on Rust strings. -/
def strLt (a b : String) : Bool := charListLt a.toList b.toList

/-- The sort step of `list_dashboard_sessions` (web.rs lines 317-346):
match on the sort field with `lastAccessed` as the wildcard default, each
direction given by `Ord::cmp` on the field. -/
def sortSessions (sortField order : String) (ss : List SessionInfo) : List SessionInfo :=
  if sortField = "name" then
    if order = "desc" then sortByStable (fun a b => strLt b.name a.name) ss
    else sortByStable (fun a b => strLt a.name b.name) ss
  else if sortField = "userCount" then
    if order = "desc" then sortByStable (fun a b => decide (b.userCount < a.userCount)) ss
    else sortByStable (fun a b => decide (a.userCount < b.userCount)) ss
  else if sortField = "shellCount" then
    if order = "desc" then sortByStable (fun a b => decide (b.shellCount < a.shellCount)) ss
    else sortByStable (fun a b => decide (a.shellCount < b.shellCount)) ss
  else
    if order = "desc" then sortByStable (fun a b => decide (b.lastAccessed < a.lastAccessed)) ss
    else sortByStable (fun a b => decide (a.lastAccessed < b.lastAccessed)) ss

/-- Fuel-driven floor of the base-2 logarithm (fuel `n` suffices for
input `n`); structural recursion so that the kernel can evaluate it. -/
def log2Aux : Nat → Nat → Nat
  | 0, _ => 0
  | fuel + 1, n => if n < 2 then 0 else log2Aux fuel (n / 2) + 1

/-- Floor of the base-2 logarithm of a positive natural. -/
def natLog2 (n : Nat) : Nat := log2Aux n n

/-- Round `num / den` to the nearest integer with ties to even, the
IEEE-754 rounding mode of Rust f32 arithmetic (applied after scaling the
exact value to the ulp grid of its binade). -/
def rnEven (num den : Nat) : Nat :=
  let m := num / den
  let r := num % den
  if den < 2 * r then m + 1
  else if 2 * r < den then m
  else if m % 2 = 0 then m else m + 1

/-- The value of `n as f32` for a natural `n` (round to nearest, ties to
even): exact below 2^24, otherwise rounded to a multiple of the ulp
2^(e-23) of the binade of `n`.  Every u32 lands in the normal f32 range,
so no overflow or subnormal case arises. -/
def f32OfNat (n : Nat) : Nat :=
  if n ≤ 16777216 then n
  else
    let s := natLog2 n - 23
    rnEven n (2 ^ s) * 2 ^ s

/-- Ceiling of the correctly rounded f32 quotient `a / b` of two
positive f32-representable naturals: the exact quotient lies in the
binade `[2^e, 2^(e+1))`, is rounded to the grid of multiples of
`2^(e-23)` with ties to even, and the result is its ceiling as a
natural.  For quotients of positive u32-ranged values the result is
normal and finite, matching Rust `(x / y).ceil()`. -/
def f32CeilDivPos (a b : Nat) : Nat :=
  let e0 : Int := (natLog2 a : Int) - (natLog2 b : Int)
  let e : Int :=
    if (if 0 ≤ e0 then b * 2 ^ e0.toNat ≤ a else b ≤ a * 2 ^ (-e0).toNat)
    then e0 else e0 - 1
  let s : Int := 23 - e
  if 0 ≤ s then (rnEven (a * 2 ^ s.toNat) b + 2 ^ s.toNat - 1) / 2 ^ s.toNat
  else rnEven a (b * 2 ^ (-s).toNat) * 2 ^ (-s).toNat

/-- `total_pages` from web.rs line 349:
`((total as f32) / (page_size as f32)).ceil() as u32`.  For
`page_size = 0` the float division yields NaN (when `total = 0`, cast
to 0) or +infinity (when `total > 0`, saturating to `u32::MAX`).  For
`page_size ≥ 1` both operands are cast to f32 with round-to-nearest-even
(`f32OfNat`), divided with correct rounding, ceiled, and cast back to
u32 with saturation at `u32::MAX`.  In particular the f32 cast can round
`total` down (16777217 becomes 16777216.0), making the result smaller
than the exact ceiling division. -/
def total_pages_of (total pageSize : Nat) : Nat :=
  if pageSize = 0 then (if total = 0 then 0 else 4294967295)
  else if total = 0 then 0
  else min (f32CeilDivPos (f32OfNat total) (f32OfNat pageSize)) 4294967295

/-- The pagination step of `list_dashboard_sessions` (web.rs lines
348-373) applied to the full filtered and sorted list. -/
def paginateResp (q : SessionListQuery) (full : List SessionInfo) : SessionListResponse :=
  let total := full.length
  let totalPages := total_pages_of total q.pageSize
  let page := min (max q.page 1) (max totalPages 1)
  let startIndex := (page - 1) * q.pageSize
  let pageSessions :=
    if startIndex < full.length then (full.drop startIndex).take q.pageSize else []
  ⟨pageSessions,
   ⟨page, q.pageSize, total, totalPages, decide (page > 1), decide (page < totalPages)⟩⟩

/-- The join step of `list_dashboard_sessions` (web.rs lines 253-300):
`none` models the NOT_FOUND branch for an unknown dashboard key;
otherwise the sessions of the live map registered to the dashboard become
`SessionInfo` values.  (The handler also stamps the dashboard
`last_accessed`, a registry side effect that does not influence the
response.) -/
def dashboardSessionItems (dashboards : List (String × Dashboard))
    (metaMap : List (String × SessionMetadata)) (now : Nat)
    (live : List LiveSession) (key : String) : Option (List SessionInfo) :=
  (lookupAssoc dashboards key).map (fun dash =>
    (live.filter (fun s => dash.sessionNames.contains s.name)).map
      (sessionInfoOf now metaMap))

/-- The full filtered and sorted list of one query (search and sort do
not depend on the page fields). -/
def filteredSorted (q : SessionListQuery) (items : List SessionInfo) : List SessionInfo :=
  sortSessions q.sort q.order (applySearch q.search items)

/-- `list_dashboard_sessions` from web.rs lines 248-374: join, filter,
sort, paginate.  `none` is the 404 NOT_FOUND result. -/
def list_dashboard_sessions (dashboards : List (String × Dashboard))
    (metaMap : List (String × SessionMetadata)) (now : Nat)
    (live : List LiveSession) (key : String) (q : SessionListQuery) :
    Option SessionListResponse :=
  (dashboardSessionItems dashboards metaMap now live key).map
    (fun items => paginateResp q (filteredSorted q items))

/-! ## Concrete fixtures used by witnesses and counterexamples -/

/-- Registry with one dashboard "d" holding sessions a, b, c. -/
def w4Dash : List (String × Dashboard) := [("d", ⟨"d", 0, 0, ["a", "b", "c"]⟩)]

/-- Three live sessions for the pagination witness. -/
def w4Live : List LiveSession :=
  [⟨"a", 1, ["u"], false, 3⟩, ⟨"b", 0, [], true, 5⟩, ⟨"c", 2, [], false, 9⟩]

/-- Query with pageSize 2 sorted by name. -/
def w4Query : SessionListQuery := ⟨1, 2, none, "name", "asc"⟩

/-- The joined items of `w4Live` under `w4Dash`. -/
def w4Items : List SessionInfo := w4Live.map (sessionInfoOf 10 [])

/-- Registry with one dashboard "d" holding session a. -/
def cx4Dash : List (String × Dashboard) := [("d", ⟨"d", 0, 0, ["a"]⟩)]

/-- One live session for the pageSize-0 counterexample. -/
def cx4Live : List LiveSession := [⟨"a", 0, [], false, 0⟩]

/-- Query with pageSize 0. -/
def cx4Query : SessionListQuery := ⟨1, 0, none, "lastAccessed", "asc"⟩

/-- The joined items of `cx4Live` under `cx4Dash` at time 0. -/
def cx4Items : List SessionInfo := [⟨"a", 0, 0, false, 0, [], none⟩]

/-- Registry with one dashboard "d" holding sessions a, b, c, for the
last-accessed evaluation. -/
def bug5Dash : List (String × Dashboard) := [("d", ⟨"d", 0, 0, ["a", "b", "c"]⟩)]

/-- Three live sessions whose most recent activity happened at wall-clock
100 ms, 200 ms and 300 ms. -/
def bug5Live : List LiveSession :=
  [⟨"a", 0, [], false, 100⟩, ⟨"b", 0, [], false, 200⟩, ⟨"c", 0, [], false, 300⟩]

/-- Query sorted by lastAccessed descending, default page size. -/
def bug5Query : SessionListQuery := ⟨1, 20, none, "lastAccessed", "desc"⟩

/-! ## Lemmas about the base64 model -/

theorem b64IndexOf_b64CharOf : ∀ n < 64, b64IndexOf (b64CharOf n) = some n := by decide

theorem b64CharOf_ne_pad : ∀ n < 64, b64CharOf n ≠ '=' := by decide

/-- Strict decoding inverts encoding on byte lists. -/
theorem b64Decode_b64Encode :
    ∀ (l : List Nat), (∀ b ∈ l, b < 256) → b64Decode (b64Encode l) = some l := by
  intro l
  induction l using b64Encode.induct with
  | case1 => intro _; rfl
  | case2 a =>
    intro h
    have ha : a < 256 := h a (by simp)
    have e1 : b64IndexOf (b64CharOf (a / 4)) = some (a / 4) := b64IndexOf_b64CharOf _ (by omega)
    have e2 : b64IndexOf (b64CharOf (a % 4 * 16)) = some (a % 4 * 16) :=
      b64IndexOf_b64CharOf _ (by omega)
    have e3 : a % 4 * 16 % 16 = 0 := by omega
    have e4 : a / 4 * 4 + a % 4 * 16 / 16 = a := by omega
    simp [b64Encode, b64Decode, e1, e2, e3, e4]
    omega
  | case3 a b =>
    intro h
    have ha : a < 256 := h a (by simp)
    have hb : b < 256 := h b (by simp)
    have e1 : b64IndexOf (b64CharOf (a / 4)) = some (a / 4) := b64IndexOf_b64CharOf _ (by omega)
    have e2 : b64IndexOf (b64CharOf (a % 4 * 16 + b / 16)) = some (a % 4 * 16 + b / 16) :=
      b64IndexOf_b64CharOf _ (by omega)
    have e3 : b64IndexOf (b64CharOf (b % 16 * 4)) = some (b % 16 * 4) :=
      b64IndexOf_b64CharOf _ (by omega)
    have hne : b64CharOf (b % 16 * 4) ≠ '=' := b64CharOf_ne_pad _ (by omega)
    have e4 : b % 16 * 4 % 4 = 0 := by omega
    have e5 : a / 4 * 4 + (a % 4 * 16 + b / 16) / 16 = a := by omega
    have e6 : (a % 4 * 16 + b / 16) % 16 * 16 + b % 16 * 4 / 4 = b := by omega
    simp [b64Encode, b64Decode, e1, e2, e3, e4, e5, e6, hne]
    omega
  | case4 a b c rest ih =>
    intro h
    have ha : a < 256 := h a (by simp)
    have hb : b < 256 := h b (by simp)
    have hc : c < 256 := h c (by simp)
    have hrest : ∀ x ∈ rest, x < 256 := fun x hx => h x (by simp [hx])
    have e1 : b64IndexOf (b64CharOf (a / 4)) = some (a / 4) := b64IndexOf_b64CharOf _ (by omega)
    have e2 : b64IndexOf (b64CharOf (a % 4 * 16 + b / 16)) = some (a % 4 * 16 + b / 16) :=
      b64IndexOf_b64CharOf _ (by omega)
    have e3 : b64IndexOf (b64CharOf (b % 16 * 4 + c / 64)) = some (b % 16 * 4 + c / 64) :=
      b64IndexOf_b64CharOf _ (by omega)
    have e4 : b64IndexOf (b64CharOf (c % 64)) = some (c % 64) :=
      b64IndexOf_b64CharOf _ (by omega)
    have hne3 : b64CharOf (b % 16 * 4 + c / 64) ≠ '=' := b64CharOf_ne_pad _ (by omega)
    have hne4 : b64CharOf (c % 64) ≠ '=' := b64CharOf_ne_pad _ (by omega)
    have v1 : a / 4 * 4 + (a % 4 * 16 + b / 16) / 16 = a := by omega
    have v2 : (a % 4 * 16 + b / 16) % 16 * 16 + (b % 16 * 4 + c / 64) / 4 = b := by omega
    have v3 : (b % 16 * 4 + c / 64) % 4 * 64 + c % 64 = c := by omega
    simp [b64Encode, b64Decode, e1, e2, e3, e4, hne3, hne4, ih hrest, v1, v2, v3]

theorem isAlnumChar_alnumCharOf : ∀ d : Fin 62, isAlnumChar (alnumCharOf d) = true := by
  decide

theorem isAlnumChar_dashboardKeyCharOf :
    ∀ d : Fin 62, isAlnumChar (dashboardKeyCharOf d) = true := by
  decide

/-! ## Claim theorems -/

/-- C3: for every session name, token verification succeeds on the token
produced at open time, `validate_token(mac, name, base64(HMAC(secret,
name))) = Ok`, and any token that fails base64 decoding or fails MAC
verification against the given name yields an error whose text is exactly
"invalid token". -/
theorem validate_token_roundtrip_and_errors (macOf : String → List Nat) (name : String)
    (hbytes : ∀ b ∈ macOf name, b < 256) :
    validate_token macOf name (b64Encode (macOf name)) = .ok () ∧
    (∀ tok, b64Decode tok = none → validate_token macOf name tok = .error "invalid token") ∧
    (∀ tok bs, b64Decode tok = some bs → bs ≠ macOf name →
      validate_token macOf name tok = .error "invalid token") := by
  refine ⟨?_, ?_, ?_⟩
  · simp [validate_token, b64Decode_b64Encode _ hbytes]
  · intro tok h
    simp [validate_token, h]
  · intro tok bs h hne
    simp [validate_token, h, hne]

theorem validate_token_roundtrip_and_errors_witness :
    validate_token (fun _ => [0, 255, 7]) "n" (b64Encode [0, 255, 7]) = .ok () :=
  (validate_token_roundtrip_and_errors (fun _ => [0, 255, 7]) "n" (by decide)).1

/-- C1: for a frontend connection whose Authenticate witness equals the
session encrypted_zeros: with no stored write_password_hash the user is
allocated with can_write = true; with a stored hash and no write witness
the user is allocated with can_write = false and the connection proceeds;
with a matching write witness can_write = true; with a mismatching write
witness the server sends InvalidAuth and closes without allocating a
user. -/
theorem frontend_auth_write_gate (meta : Metadata) (bytes : List Nat)
    (h : ctEq bytes meta.encryptedZeros = true) :
    (meta.writePasswordHash = none →
      ∀ w, authenticate meta (some (.authenticate bytes w)) = ⟨[], some true, []⟩) ∧
    (∀ hsh, meta.writePasswordHash = some hsh →
      authenticate meta (some (.authenticate bytes none)) = ⟨[], some false, []⟩ ∧
      (∀ w, ctEq w hsh = true →
        authenticate meta (some (.authenticate bytes (some w))) = ⟨[], some true, []⟩) ∧
      (∀ w, ctEq w hsh = false →
        authenticate meta (some (.authenticate bytes (some w))) =
          ⟨[.invalidAuth], none, []⟩)) := by
  refine ⟨?_, ?_⟩
  · intro hn w
    cases w <;> simp [authenticate, h, hn]
  · intro hsh hs
    refine ⟨by simp [authenticate, h, hs], fun w hw => ?_, fun w hw => ?_⟩
    · simp [authenticate, h, hs, hw]
    · simp [authenticate, h, hs, hw]

theorem frontend_auth_write_gate_witness :
    authenticate ⟨"s", [0, 1], some [7]⟩ (some (.authenticate [0, 1] none)) =
      ⟨[], some false, []⟩ :=
  ((frontend_auth_write_gate ⟨"s", [0, 1], some [7]⟩ [0, 1] (by decide)).2 [7] rfl).1

/-- C2: if the first decoded client frame is not Authenticate, or the
Authenticate witness differs from the session encrypted_zeros, the server
sends exactly one InvalidAuth frame and closes the channel: no user is
registered and no message is enqueued to the backend. -/
theorem frontend_auth_reject (meta : Metadata) (m : WsClient)
    (h : (∀ b w, m ≠ .authenticate b w) ∨
      (∃ b w, m = .authenticate b w ∧ ctEq b meta.encryptedZeros = false)) :
    authenticate meta (some m) = ⟨[.invalidAuth], none, []⟩ := by
  rcases h with h | ⟨b, w, hm, hb⟩
  · cases m with
    | authenticate b w => exact absurd rfl (h b w)
    | _ => rfl
  · subst hm
    simp [authenticate, hb]

theorem frontend_auth_reject_witness :
    authenticate ⟨"s", [0], none⟩ (some (.setName "x")) = ⟨[.invalidAuth], none, []⟩ :=
  frontend_auth_reject ⟨"s", [0], none⟩ (.setName "x")
    (Or.inl (fun _ _ hbw => nomatch hbw))

/-- C7: for an authenticated user with can_write = false, each of the
client verbs Create, Close, Move and Data makes the server send an Error
frame while the connection continues (the remaining frames are still
processed), and no CreateShell, CloseShell, Resize or Input message is
enqueued to the backend queue. -/
theorem reader_write_verbs_denied (sid : Nat) (moveShell : Except String Unit)
    (ms : List WsClient) (x y : Int) (id : Nat) (w : Option WsWinsize)
    (d : List Nat) (off : Nat) :
    (runClientMsgs false moveShell sid (.create x y :: ms) =
      (.error "no write permission" :: (runClientMsgs false moveShell sid ms).1,
       (runClientMsgs false moveShell sid ms).2)) ∧
    (runClientMsgs false moveShell sid (.close id :: ms) =
      (.error "no write permission" :: (runClientMsgs false moveShell sid ms).1,
       (runClientMsgs false moveShell sid ms).2)) ∧
    (runClientMsgs false moveShell sid (.move id w :: ms) =
      (.error "no write permission" :: (runClientMsgs false moveShell sid ms).1,
       (runClientMsgs false moveShell sid ms).2)) ∧
    (runClientMsgs false moveShell sid (.data id d off :: ms) =
      (.error "no write permission" :: (runClientMsgs false moveShell sid ms).1,
       (runClientMsgs false moveShell sid ms).2)) := by
  refine ⟨?_, ?_, ?_, ?_⟩ <;>
    simp [runClientMsgs, handleClientMsg, check_write_permission]

/-- C8 counterexample: text frames are not ignored by the proxy; a text
frame received on either side is forwarded to the other side, so the pump
output differs from the empty output the claim predicts. -/
theorem proxy_text_ignored_counterexample :
    proxyPump [(true, .ok (.text "a")), (false, .ok (.text "b"))] =
      ([.text "a"], [.text "b"]) ∧
    proxyPump [(true, .ok (.text "a")), (false, .ok (.text "b"))] ≠
      (([] : List WsMessage), ([] : List WsMessage)) := by
  constructor
  · rfl
  · decide

/-- C8 (amended): the proxy pumps binary frames, close frames and also
text frames bidirectionally until either side closes or errors; only the
remaining frame kinds (ping, pong) are ignored. -/
theorem proxy_forwarding_behavior :
    (∀ s, proxyClientToUpstream (.ok (.text s)) = .forward (.text s) ∧
      proxyUpstreamToClient (.ok (.text s)) = .forward (.text s)) ∧
    (∀ b, proxyClientToUpstream (.ok (.binary b)) = .forward (.binary b) ∧
      proxyUpstreamToClient (.ok (.binary b)) = .forward (.binary b)) ∧
    (∀ f, proxyClientToUpstream (.ok (.close f)) = .forward (.close f) ∧
      proxyUpstreamToClient (.ok (.close f)) = .forward (.close f)) ∧
    (∀ b, proxyClientToUpstream (.ok (.ping b)) = .ignore ∧
      proxyUpstreamToClient (.ok (.ping b)) = .ignore ∧
      proxyClientToUpstream (.ok (.pong b)) = .ignore ∧
      proxyUpstreamToClient (.ok (.pong b)) = .ignore) ∧
    (proxyClientToUpstream (.error ()) = .halt ∧
      proxyUpstreamToClient (.error ()) = .halt) ∧
    (∀ side rest, proxyPump ((side, .error ()) :: rest) = ([], [])) := by
  refine ⟨fun s => ⟨rfl, rfl⟩, fun b => ⟨rfl, rfl⟩, fun f => ⟨rfl, rfl⟩,
    fun b => ⟨rfl, rfl, rfl, rfl⟩, ⟨rfl, rfl⟩, fun side rest => ?_⟩
  cases side <;> rfl

/-- C6: a successful OpenSession returns a freshly generated 10-character
alphanumeric name, the standard-base64 token of HMAC(secret, name), and
url = origin ++ "/s/" ++ name; a collision with an existing session
yields an error and no session is inserted. -/
theorem open_session_response (macOf : String → List Nat) (existing : String → Bool)
    (req : OpenRequest) (draws : List (Fin 62)) (n : String)
    (hn : n = rand_alphanumeric draws) (hd : draws.length = 10)
    (ho : req.origin ≠ "") :
    (n.length = 10 ∧ ∀ c ∈ n.toList, isAlnumChar c = true) ∧
    (existing n = false →
      handleOpenSession macOf none existing n req =
        (.openSession n (b64Encode (macOf n)) (req.origin ++ "/s/" ++ n),
         some (n, ⟨req.name, req.encryptedZeros, req.writePasswordHash⟩))) ∧
    (existing n = true →
      handleOpenSession macOf none existing n req =
        (.error "generated duplicate ID", none)) := by
  subst hn
  refine ⟨⟨?_, ?_⟩, fun hex => ?_, fun hex => ?_⟩
  · simp [rand_alphanumeric, String.length, hd]
  · intro c hc
    simp [rand_alphanumeric, String.toList, String.mk, rand_alphanumeric] at hc
    obtain ⟨d, _, rfl⟩ := hc
    exact isAlnumChar_alnumCharOf d
  · simp [handleOpenSession, ho, hex]
  · simp [handleOpenSession, ho, hex]

theorem open_session_response_witness :
    handleOpenSession (fun _ => [1, 2, 3]) none (fun _ => false)
      (rand_alphanumeric (List.replicate 10 (0 : Fin 62)))
      ⟨"https://x", [0], "nm", none⟩ =
      (.openSession (rand_alphanumeric (List.replicate 10 (0 : Fin 62)))
        (b64Encode [1, 2, 3])
        ("https://x" ++ "/s/" ++ rand_alphanumeric (List.replicate 10 (0 : Fin 62))),
       some (rand_alphanumeric (List.replicate 10 (0 : Fin 62)), ⟨"nm", [0], none⟩)) :=
  ((open_session_response (fun _ => [1, 2, 3]) (fun _ => false)
    ⟨"https://x", [0], "nm", none⟩ (List.replicate 10 (0 : Fin 62)) _
    rfl (by decide) (by decide)).2.1 rfl)

/-- C9: GET /api/dashboards/{key}/info never returns HTTP 404; for an
unknown key it responds 200 with {exists: false, sessionCount: 0,
createdAt: null}, while GET /api/dashboards/{key}/status returns 404 for
the same unknown key. -/
theorem dashboard_info_never_404 (dashboards : List (String × Dashboard)) (key : String) :
    (get_dashboard_info dashboards key).1 = 200 ∧
    (lookupAssoc dashboards key = none →
      get_dashboard_info dashboards key = (200, ⟨false, 0, none⟩) ∧
      check_dashboard_status dashboards key = 404) := by
  constructor
  · unfold get_dashboard_info
    cases lookupAssoc dashboards key <;> simp
  · intro h
    unfold get_dashboard_info check_dashboard_status
    rw [h]
    simp

theorem dashboard_info_never_404_witness :
    (get_dashboard_info [] "k").1 = 200 ∧
    (get_dashboard_info [] "k" = (200, ⟨false, 0, none⟩) ∧
      check_dashboard_status [] "k" = 404) :=
  ⟨(dashboard_info_never_404 [] "k").1, (dashboard_info_never_404 [] "k").2 rfl⟩

theorem lookupAssoc_append_single {β : Type} (m : List (String × β)) (k : String) (v : β)
    (h : lookupAssoc m k = none) : lookupAssoc (m ++ [(k, v)]) k = some v := by
  induction m with
  | nil => simp [lookupAssoc]
  | cons p ps ih =>
    by_cases hp : p.1 = k
    · exfalso
      simp [lookupAssoc, List.find?_cons, hp] at h
    · have hd : (decide (p.1 = k)) = false := by simp [hp]
      have h' : lookupAssoc ps k = none := by
        simp only [lookupAssoc, List.find?_cons, hd] at h
        exact h
      have goal' := ih h'
      simp only [lookupAssoc, List.cons_append, List.find?_cons, hd] at goal' ⊢
      exact goal'

/-- C10: register_dashboard with a client-supplied dashboardKey absent
from the registry silently creates a dashboard under exactly that key, of
any length or character set; the 16-character alphanumeric format applies
only to server-generated keys, and provided keys are never validated or
rejected. -/
theorem register_dashboard_any_client_key
    (now : Nat) (genKey : String) (hostOpt : Option String)
    (dashboards : List (String × Dashboard)) (metaMap : List (String × SessionMetadata))
    (req : RegisterDashboardRequest) (k : String)
    (hk : req.dashboardKey = some k) (habs : lookupAssoc dashboards k = none) :
    lookupAssoc (register_dashboard now genKey hostOpt dashboards metaMap req).1 k =
      some ⟨k, now, now, [req.sessionName]⟩ ∧
    (register_dashboard now genKey hostOpt dashboards metaMap req).2.2.dashboardKey = k ∧
    (∀ draws : List (Fin 62),
      (generate_dashboard_key draws).length = draws.length ∧
      ∀ c ∈ (generate_dashboard_key draws).toList, isAlnumChar c = true) := by
  refine ⟨?_, ?_, fun draws => ⟨?_, ?_⟩⟩
  · have hin : insertName req.sessionName ([] : List String) = [req.sessionName] := by
      simp [insertName]
    simp only [register_dashboard, hk, Option.getD_some, habs, Option.getD_none, hin]
    rw [insertAssoc, if_neg (by simp [habs])]
    exact lookupAssoc_append_single dashboards k _ habs
  · simp [register_dashboard, hk]
  · simp [generate_dashboard_key, String.length]
  · intro c hc
    simp [generate_dashboard_key, String.toList, String.mk] at hc
    obtain ⟨d, _, rfl⟩ := hc
    exact isAlnumChar_dashboardKeyCharOf d

theorem register_dashboard_any_client_key_witness :
    lookupAssoc (register_dashboard 5 "gen" none [] []
      ⟨"s1", "u", none, "dn", some "!!"⟩).1 "!!" = some ⟨"!!", 5, 5, ["s1"]⟩ :=
  (register_dashboard_any_client_key 5 "gen" none [] []
    ⟨"s1", "u", none, "dn", some "!!"⟩ "!!" rfl rfl).1

/-! ## Pagination lemmas -/

theorem pageSlice_eq {α : Type} (l : List α) (s k : Nat) :
    (if s < l.length then (l.drop s).take k else []) = (l.drop s).take k := by
  split
  · rfl
  · next h =>
    rw [List.drop_eq_nil_of_le (by omega), List.take_nil]

/-- Concatenating the chunks of a list over at least
ceil(length / k) many pages reassembles it (pages past the end are
empty). -/
theorem flatten_chunks_ge {α : Type} (k : Nat) (hk : 1 ≤ k) :
    ∀ (n : Nat) (l : List α), (l.length + k - 1) / k ≤ n →
      ((List.range n).map (fun i => (l.drop (i * k)).take k)).flatten = l := by
  intro n
  induction n with
  | zero =>
    intro l hl
    have h0 : ¬ (k ≤ l.length + k - 1) := by
      intro hc
      have := (Nat.one_le_div_iff (by omega : 0 < k)).mpr hc
      omega
    have hl0 : l = [] := List.length_eq_zero.mp (by omega)
    subst hl0
    rfl
  | succ n ih =>
    intro l hl
    have hk0 : 0 < k := hk
    by_cases hlen : l.length = 0
    · have hl0 : l = [] := List.length_eq_zero.mp hlen
      subst hl0
      rw [List.flatten_eq_nil_iff]
      intro x hx
      rw [List.mem_map] at hx
      obtain ⟨i, _, rfl⟩ := hx
      simp
    · rw [List.range_succ_eq_map, List.map_cons, List.flatten_cons, List.map_map]
      have hcomp : ∀ i ∈ List.range n,
          ((fun i => (l.drop (i * k)).take k) ∘ Nat.succ) i =
            (((l.drop k).drop (i * k)).take k) := by
        intro i _
        simp only [Function.comp]
        rw [Nat.succ_mul, List.drop_drop, Nat.add_comm (i * k) k]
      rw [List.map_congr_left hcomp]
      rw [ih (l.drop k) ?hn]
      · simp only [Nat.zero_mul, List.drop_zero]
        exact List.take_append_drop k l
      case hn =>
        rw [List.length_drop]
        rcases le_or_lt l.length k with hle | hlt
        · have h1 : (l.length - k + k - 1) / k = 0 := Nat.div_eq_of_lt (by omega)
          omega
        · have e1 : l.length + k - 1 = (l.length - 1) + k := by omega
          have e2 : l.length - k + k - 1 = (l.length - k - 1) + k := by omega
          have e3 : l.length - 1 = (l.length - k - 1) + k := by omega
          rw [e1, Nat.add_div_right _ hk0, e3, Nat.add_div_right _ hk0] at hl
          rw [e2, Nat.add_div_right _ hk0]
          omega

theorem length_insertSorted {α : Type} (lt : α → α → Bool) (a : α) (l : List α) :
    (insertSorted lt a l).length = l.length + 1 := by
  induction l with
  | nil => rfl
  | cons b bs ih =>
    simp only [insertSorted]
    split
    · simp [ih]
    · simp

theorem length_sortByStable {α : Type} (lt : α → α → Bool) (l : List α) :
    (sortByStable lt l).length = l.length := by
  induction l with
  | nil => rfl
  | cons a as ih => simp [sortByStable, length_insertSorted, ih]

theorem length_sortSessions (sortField order : String) (ss : List SessionInfo) :
    (sortSessions sortField order ss).length = ss.length := by
  unfold sortSessions
  split_ifs <;> simp [length_sortByStable]

/-- C4 (amended): for every dashboard session-list query the reported
page is clamped to [1, max(totalPages, 1)], hasNext = (page <
totalPages), hasPrevious = (page > 1), and total equals the number of
sessions after filtering; for pageSize ≥ 1, concatenating the sessions
arrays of pages 1..totalPages of the same query equals the full filtered
and sorted list whenever the computed totalPages is at least
ceil(total / pageSize).  The covering condition is needed because the
f32 cast can round the total down (see
`total_pages_of_f32_rounding_loss`), and it fails outright for
pageSize = 0, where every page is empty (see the counterexample). -/
theorem list_sessions_pagination
    (dashboards : List (String × Dashboard)) (metaMap : List (String × SessionMetadata))
    (now : Nat) (live : List LiveSession) (key : String) (q : SessionListQuery)
    (items : List SessionInfo)
    (hitems : dashboardSessionItems dashboards metaMap now live key = some items) :
    (∀ p, list_dashboard_sessions dashboards metaMap now live key { q with page := p } =
      some (paginateResp { q with page := p } (filteredSorted q items))) ∧
    (paginateResp q (filteredSorted q items)).pagination.total =
      (filteredSorted q items).length ∧
    (filteredSorted q items).length = (applySearch q.search items).length ∧
    (paginateResp q (filteredSorted q items)).pagination.page =
      min (max q.page 1)
        (max (paginateResp q (filteredSorted q items)).pagination.totalPages 1) ∧
    (paginateResp q (filteredSorted q items)).pagination.hasNext =
      decide ((paginateResp q (filteredSorted q items)).pagination.page <
        (paginateResp q (filteredSorted q items)).pagination.totalPages) ∧
    (paginateResp q (filteredSorted q items)).pagination.hasPrevious =
      decide (1 < (paginateResp q (filteredSorted q items)).pagination.page) ∧
    (1 ≤ q.pageSize →
      ((filteredSorted q items).length + q.pageSize - 1) / q.pageSize ≤
        (paginateResp q (filteredSorted q items)).pagination.totalPages →
      ((List.range (paginateResp q (filteredSorted q items)).pagination.totalPages).map
        (fun i =>
          (paginateResp { q with page := i + 1 } (filteredSorted q items)).sessions)).flatten =
        filteredSorted q items) := by
  refine ⟨fun p => ?_, rfl, ?_, rfl, rfl, rfl, fun hps hcov => ?_⟩
  · simp only [list_dashboard_sessions, hitems]
    rfl
  · exact length_sortSessions q.sort q.order (applySearch q.search items)
  · have hpage : ∀ i ∈
        List.range (paginateResp q (filteredSorted q items)).pagination.totalPages,
        (paginateResp { q with page := i + 1 } (filteredSorted q items)).sessions =
          ((filteredSorted q items).drop (i * q.pageSize)).take q.pageSize := by
      intro i hi
      rw [List.mem_range] at hi
      have hi' : i < total_pages_of (filteredSorted q items).length q.pageSize := hi
      simp only [paginateResp]
      have h2 : min (max (i + 1) 1)
          (max (total_pages_of (filteredSorted q items).length q.pageSize) 1) =
            i + 1 := by
        omega
      rw [h2]
      simp only [Nat.add_sub_cancel]
      exact pageSlice_eq _ _ _
    rw [List.map_congr_left hpage]
    exact flatten_chunks_ge q.pageSize hps _ (filteredSorted q items) hcov

theorem list_sessions_pagination_witness :
    ((List.range (paginateResp w4Query (filteredSorted w4Query w4Items)).pagination.totalPages).map
      (fun i =>
        (paginateResp { w4Query with page := i + 1 }
          (filteredSorted w4Query w4Items)).sessions)).flatten =
      filteredSorted w4Query w4Items :=
  (list_sessions_pagination w4Dash [] 10 w4Live "d" w4Query w4Items
    (by decide)).2.2.2.2.2.2 (by decide) (by decide)

/-- The f32 cast in `total_pages` rounds the u32 total 16777217 to the
f32 value 16777216.0 (ties-to-even at the 2^24 boundary), so with
pageSize 1 the computed page count is 16777216, one short of the exact
ceiling 16777217: the final session of such a list appears on no page. -/
theorem total_pages_of_f32_rounding_loss :
    total_pages_of 16777217 1 = 16777216 ∧ (16777217 + 1 - 1) / 1 = 16777217 := by
  constructor
  · decide
  · decide

/-- C4 counterexample: with pageSize = 0 (and one matching session) the
handler reports totalPages = 4294967295 and every page carries an empty
sessions array, so concatenating the sessions arrays of pages
1..totalPages yields the empty list, not the full filtered and sorted
list. -/
theorem pagination_pagesize_zero_counterexample :
    list_dashboard_sessions cx4Dash [] 0 cx4Live "d" cx4Query =
      some (paginateResp cx4Query (filteredSorted cx4Query cx4Items)) ∧
    (paginateResp cx4Query (filteredSorted cx4Query cx4Items)).pagination.totalPages =
      4294967295 ∧
    ((List.range
        (paginateResp cx4Query (filteredSorted cx4Query cx4Items)).pagination.totalPages).map
      (fun i =>
        (paginateResp { cx4Query with page := i + 1 }
          (filteredSorted cx4Query cx4Items)).sessions)).flatten ≠
      filteredSorted cx4Query cx4Items := by
  refine ⟨by decide, by decide, ?_⟩
  have hempty : ∀ i : Nat,
      (paginateResp { cx4Query with page := i + 1 }
        (filteredSorted cx4Query cx4Items)).sessions = [] := by
    intro i
    have hfull : filteredSorted cx4Query cx4Items = cx4Items := by decide
    simp only [paginateResp, hfull]
    simp [cx4Query, cx4Items, total_pages_of]
  have hnil : ((List.range
      (paginateResp cx4Query (filteredSorted cx4Query cx4Items)).pagination.totalPages).map
      (fun i =>
        (paginateResp { cx4Query with page := i + 1 }
          (filteredSorted cx4Query cx4Items)).sessions)).flatten = [] := by
    rw [List.flatten_eq_nil_iff]
    intro x hx
    rw [List.mem_map] at hx
    obtain ⟨i, _, rfl⟩ := hx
    exact hempty i
  rw [hnil]
  decide

/-- C5: at the failing input three sessions whose most recent activity
was at wall-clock 100, 200 and 300 ms, queried at wall-clock 1000 ms with
sort=lastAccessed and order=desc, the handler returns the session that
was last active at 100 ms (the least recently accessed) first, and
reports lastAccessed = 900/800/700 (the elapsed ms since activity) rather
than the wall-clock timestamps 100/200/300; the claim (and the Rust doc
comment of SessionInfo.last_accessed) instead require wall-clock
timestamps with the newest session first, namely [("c", 300), ("b", 200),
("a", 100)]. -/
theorem dashboard_last_accessed_at_failing_input :
    (list_dashboard_sessions bug5Dash [] 1000 bug5Live "d" bug5Query).map
      (fun r => r.sessions.map (fun s => (s.name, s.lastAccessed))) =
      some [("a", 900), ("b", 800), ("c", 700)] ∧
    ¬ ((list_dashboard_sessions bug5Dash [] 1000 bug5Live "d" bug5Query).map
      (fun r => r.sessions.map (fun s => (s.name, s.lastAccessed))) =
      some [("c", 300), ("b", 200), ("a", 100)]) := by
  constructor
  · decide
  · decide

end SSHXtend
